import Mathlib

/-!
Shallow embedding of the `httpc` Go HTTP client library, covering the retry
transport, the domain blocklist transport, the debug transport header masking,
request URL resolution, and the response body cache with gzip handling.
Each definition mirrors one Go function of the repository; theorems settle the
specification claims about them.
-/

set_option maxHeartbeats 1000000

namespace Httpc

/-- Errors produced or propagated by transports.  Go `error` values are modelled
as an inductive: a blocklist error carrying the matched entry, a gzip decode
failure, a read failure, or an abstract inner transport error. -/
inductive Err where
  | blocked (domain : String)
  | gzip
  | readFail
  | inner (n : Nat)
deriving DecidableEq, Repr

/-- Model of `*http.Response` as far as the claims need it: the status code
(Go `int`). -/
structure Response where
  statusCode : Int
deriving DecidableEq, Repr

/-- Outcome of one `RoundTrip` call: the `(resp, err)` pair, each possibly nil. -/
abbrev Outcome := Option Response × Option Err

/-- Model of `*http.Request` as far as the claims need it: the URL host
(for the blocklist transport) and the body, `none` for a nil `req.Body`,
`some bs` for a readable body whose full byte content is `bs`. -/
structure Request where
  host : String
  body : Option (List Nat)
deriving DecidableEq, Repr

/-- Embeds `RetryConfig` from the Go source: `MaxRetries` is a Go `int`
(so it may be negative), `Backoff` a `time.Duration` (an `int64` count of
nanoseconds), and `RetryIf` a possibly-nil predicate on the outcome. -/
structure RetryConfig where
  maxRetries : Int
  backoff : Int
  retryIf : Option (Option Response → Option Err → Bool)

/-- Embeds `defaultRetryCondition` from the source: retry on any non-nil
error, else on status `>= 500` or `== 429`.  The Go code dereferences `resp`
only when `err` is nil; the model takes the response directly. -/
def defaultRetryCondition (resp : Response) (err : Option Err) : Bool :=
  if err.isSome then
    true
  else
    decide (500 ≤ resp.statusCode) || decide (resp.statusCode = 429)

/-- Embeds `strings.Contains(s, sub)`: `sub` occurs as a contiguous substring
of `s`. -/
def strContains (s sub : String) : Bool :=
  decide (sub.toList <:+: s.toList)

/-- Embeds `blockListTransport.RoundTrip`: scan the blocked list in order; on
the first entry contained in the request URL host, return `(nil, error)`
without delegating; otherwise delegate to the inner transport. -/
def blockListRoundTrip (blockedList : List String)
    (inner : Request → Outcome) (req : Request) : Outcome :=
  match blockedList.find? (fun blocked => strContains req.host blocked) with
  | some blocked => (none, some (Err.blocked blocked))
  | none => inner req

/-- Record of one attempt inside `retryTransport.RoundTrip`: the body attached
to the request when the inner transport was invoked, and the outcome the inner
transport produced. -/
structure AttemptLog where
  sentBody : Option (List Nat)
  outcome : Outcome
deriving DecidableEq, Repr

/-- Full observable trace of one `retryTransport.RoundTrip` call: the attempts
that reached the inner transport in order, the sleep durations performed
between attempts in order, and the returned `(resp, err)` pair. -/
structure RetryTrace where
  attempts : List AttemptLog
  sleeps : List Int
  result : Outcome
deriving Repr

/-- Embeds the retry decision of the source:
`shouldRetry := t.config.RetryIf != nil && t.config.RetryIf(resp, err)`. -/
def shouldRetry (cfg : RetryConfig) (o : Outcome) : Bool :=
  match cfg.retryIf with
  | none => false
  | some f => f o.1 o.2

/-- Body of the `for attempt := 0; attempt <= MaxRetries; attempt++` loop of
`retryTransport.RoundTrip`.  The fuel argument counts the iterations the loop
condition still allows; the top-level wrapper passes `(MaxRetries + 1).toNat`,
which is exact because the loop is only ever re-entered after `continue`,
which requires `attempt < MaxRetries`.  Each iteration resets the request body
to the buffered bytes (when non-nil), invokes the inner transport, and either
sleeps `Backoff * (attempt + 1)` and continues, or breaks. -/
def retryLoop (cfg : RetryConfig) (inner : Nat → Request → Outcome)
    (req : Request) (bodyBytes : Option (List Nat)) :
    Nat → Nat → RetryTrace
  | _, 0 => ⟨[], [], (none, none)⟩
  | attempt, fuel + 1 =>
    let req1 := match bodyBytes with
      | some b => { req with body := some b }
      | none => req
    let out := inner attempt req1
    if decide ((attempt : Int) < cfg.maxRetries) && shouldRetry cfg out then
      let rest := retryLoop cfg inner req bodyBytes (attempt + 1) fuel
      ⟨⟨req1.body, out⟩ :: rest.attempts,
       cfg.backoff * ((attempt : Int) + 1) :: rest.sleeps,
       rest.result⟩
    else
      ⟨[⟨req1.body, out⟩], [], out⟩

/-- Embeds `retryTransport.RoundTrip`: buffer the body bytes once up front
(`nil` body means no buffering), then run the retry loop starting at attempt
0.  The inner transport is modelled as a function of the attempt index and the
request it is handed. -/
def retryRoundTrip (cfg : RetryConfig) (inner : Nat → Request → Outcome)
    (req : Request) : RetryTrace :=
  retryLoop cfg inner req req.body 0 (cfg.maxRetries + 1).toNat

/-- Embeds `strings.TrimSpace`: drop leading and trailing whitespace
characters.  Implemented directly on the character list so that concrete
instances evaluate in the kernel. -/
def goTrimSpace (s : String) : String :=
  ⟨((s.data.dropWhile Char.isWhitespace).reverse.dropWhile Char.isWhitespace).reverse⟩

/-- Embeds `strings.TrimSuffix(s, "/")`: remove one trailing slash when
present. -/
def trimSuffixSlash (s : String) : String :=
  if s.data.getLast? = some '/' then ⟨s.data.dropLast⟩ else s

/-- Embeds `strings.HasPrefix`. -/
def strStartsWith (s pre : String) : Bool :=
  pre.data.isPrefixOf s.data

/-- Embeds `isAbsoluteURL` from the source: the URL starts with `http://` or
`https://`. -/
def isAbsoluteURL (urlStr : String) : Bool :=
  strStartsWith urlStr "http://" || strStartsWith urlStr "https://"

/-- Embeds `RequestBuilder.resolveURL` from the source: trim both strings; an
absolute request URL wins outright; an empty base yields the request URL;
otherwise the base loses one trailing slash, an empty request URL yields the
base alone, and a separating slash is inserted only when the request URL does
not already start with one. -/
def resolveURL (baseURL urlStr : String) : String :=
  let b := goTrimSpace baseURL
  let p := goTrimSpace urlStr
  if isAbsoluteURL p then p
  else if b = "" then p
  else
    let b2 := trimSuffixSlash b
    if p = "" then b2
    else if strStartsWith p "/" then b2 ++ p
    else b2 ++ "/" ++ p

/-- Transcribes the claimed URL-resolution rule word for word: after the
absolute-URL and empty-base cases, the trimmed base (one trailing slash
removed) is concatenated with the trimmed path, with a separating slash
inserted exactly when the path does not already start with one.  Declared for
comparison with `resolveURL`, which is taken from the source. -/
def resolveURLClaimed (baseURL urlStr : String) : String :=
  let b := goTrimSpace baseURL
  let p := goTrimSpace urlStr
  if isAbsoluteURL p then p
  else if b = "" then p
  else
    let b2 := trimSuffixSlash b
    if strStartsWith p "/" then b2 ++ p
    else b2 ++ "/" ++ p

/-- Statement of the URL-resolution rule amended by the empty-path case the
source actually implements: a separating slash is inserted exactly when the
trimmed path is non-empty and does not already start with one, and an empty
trimmed path yields the trimmed base (one trailing slash removed) alone. -/
def resolveURLAmended (baseURL urlStr : String) : String :=
  let b := goTrimSpace baseURL
  let p := goTrimSpace urlStr
  if isAbsoluteURL p then p
  else if b = "" then p
  else if p = "" then trimSuffixSlash b
  else if strStartsWith p "/" then trimSuffixSlash b ++ p
  else trimSuffixSlash b ++ "/" ++ p

/-- Embeds `strings.ToLower` for the ASCII range used by the header names. -/
def strToLower (s : String) : String :=
  ⟨s.data.map Char.toLower⟩

/-- Literal list of sensitive header substrings from
`DebugTransport.isSensitive`. -/
def sensitiveHeaderNames : List String :=
  ["authorization", "api-key", "x-api-key", "cookie"]

/-- Embeds `DebugTransport.isSensitive`: the lower-cased header name contains
one of the sensitive substrings. -/
def isSensitive (header : String) : Bool :=
  sensitiveHeaderNames.any (fun s => strContains (strToLower header) s)

/-- The fixed placeholder the debug transport logs in place of a sensitive
header value. -/
def maskedValue : String := "***MODIFIED***SENSITIVE HEADER***"

/-- Embeds the per-line output of `DebugTransport.logHeaders`: each
`(name, value)` line is logged with the value replaced by the placeholder when
the name is sensitive, unchanged otherwise. -/
def logHeaders (headers : List (String × String)) : List (String × String) :=
  headers.map (fun kv => (kv.1, if isSensitive kv.1 then maskedValue else kv.2))

/-- Embeds `isGzipEncoded` from the source: the Content-Encoding value
lower-cases to `gzip`. -/
def isGzipEncoded (contentEncoding : String) : Bool :=
  strToLower contentEncoding = "gzip"

/-- Embeds `decodeGzipBody` from the source.  The gzip algorithm itself
(`gzip.NewReader` followed by `io.ReadAll`) is an oracle `gunzip` returning
either the decoded bytes or a failure; on failure the ORIGINAL bytes are
returned alongside the error, and an empty body is passed through untouched. -/
def decodeGzipBody (gunzip : List Nat → Except Unit (List Nat))
    (body : List Nat) : List Nat × Option Err :=
  if body = [] then (body, none)
  else
    match gunzip body with
    | Except.ok decoded => (decoded, none)
    | Except.error _ => (body, some Err.gzip)

/-- Mutable state of a `Response` as far as the body accessors observe it: the
Content-Encoding header, the body cache (nil until the first successful read),
and how many reads of the underlying stream have been performed. -/
structure RespState where
  contentEncoding : String
  bodyCache : Option (List Nat)
  readsDone : Nat
deriving DecidableEq, Repr

/-- Embeds `Response.Bytes`.  The underlying stream is an oracle `reads`
giving the outcome of the n-th physical read.  Return the cache when non-nil;
otherwise read the stream once (on failure return `(nil, err)` with the cache
untouched); gunzip when gzip-encoded (on failure return `(nil, err)` with the
cache untouched, discarding the fallback bytes `decodeGzipBody` produced);
otherwise populate the cache and return the bytes. -/
def bytes (gunzip : List Nat → Except Unit (List Nat))
    (reads : Nat → Except Unit (List Nat)) (r : RespState) :
    (Option (List Nat) × Option Err) × RespState :=
  match r.bodyCache with
  | some b => ((some b, none), r)
  | none =>
    match reads r.readsDone with
    | Except.error _ => ((none, some Err.readFail), { r with readsDone := r.readsDone + 1 })
    | Except.ok raw =>
      let r1 : RespState := { r with readsDone := r.readsDone + 1 }
      let decoded : List Nat × Option Err :=
        if isGzipEncoded r.contentEncoding then decodeGzipBody gunzip raw
        else (raw, none)
      match decoded.2 with
      | some e => ((none, some e), r1)
      | none => ((some decoded.1, none), { r1 with bodyCache := some decoded.1 })

/-- Bytes-to-text conversion used by `Response.String` (Go `string(body)`),
modelled as a character-wise injection. -/
def bytesToStr (l : List Nat) : String :=
  ⟨l.map Char.ofNat⟩

/-- Embeds `Response.String`: delegate to `bytes`, convert to text on success,
return the error otherwise. -/
def stringBody (gunzip : List Nat → Except Unit (List Nat))
    (reads : Nat → Except Unit (List Nat)) (r : RespState) :
    (Option String × Option Err) × RespState :=
  match bytes gunzip reads r with
  | ((some b, none), r1) => ((some (bytesToStr b), none), r1)
  | ((_, e), r1) => ((none, e), r1)

/-- Embeds `Response.JSON`: delegate to `bytes`, then hand the bytes to the
unmarshaller (`json.Unmarshal`, abstracted as an oracle). -/
def jsonDecode (unmarshal : List Nat → Option Err)
    (gunzip : List Nat → Except Unit (List Nat))
    (reads : Nat → Except Unit (List Nat)) (r : RespState) :
    Option Err × RespState :=
  match bytes gunzip reads r with
  | ((some b, none), r1) => (unmarshal b, r1)
  | ((_, e), r1) => (e, r1)

/-- Embeds `Response.XML`: same shape as `Response.JSON` with
`xml.Unmarshal` abstracted as an oracle. -/
def xmlDecode (unmarshal : List Nat → Option Err)
    (gunzip : List Nat → Except Unit (List Nat))
    (reads : Nat → Except Unit (List Nat)) (r : RespState) :
    Option Err × RespState :=
  match bytes gunzip reads r with
  | ((some b, none), r1) => (unmarshal b, r1)
  | ((_, e), r1) => (e, r1)

/-- Embeds `Response.CSV`: delegate to `bytes`, then parse the bytes with the
CSV machinery (abstracted as an oracle over the cached bytes). -/
def csvDecode (parse : List Nat → Option Err)
    (gunzip : List Nat → Except Unit (List Nat))
    (reads : Nat → Except Unit (List Nat)) (r : RespState) :
    Option Err × RespState :=
  match bytes gunzip reads r with
  | ((some b, none), r1) => (parse b, r1)
  | ((_, e), r1) => (e, r1)

/-- Inner-transport fixture for concrete instances: attempt `n` fails with an
abstract transport error tagged `n`. -/
def innerFail : Nat → Request → Outcome :=
  fun n _ => (none, some (Err.inner n))

/-- Inner-transport fixture for concrete instances: every request succeeds
with a 200 response. -/
def innerOK : Request → Outcome :=
  fun _ => (some ⟨200⟩, none)

theorem retryLoop_len_le (cfg : RetryConfig) (inner : Nat → Request → Outcome)
    (req : Request) (bb : Option (List Nat)) :
    ∀ (fuel attempt : Nat),
      (retryLoop cfg inner req bb attempt fuel).attempts.length ≤ fuel := by
  intro fuel
  induction fuel with
  | zero => intro attempt; simp [retryLoop]
  | succ n ih =>
    intro attempt
    simp only [retryLoop]
    split
    · simpa using Nat.succ_le_succ (ih (attempt + 1))
    · simp

theorem retryLoop_len_pos (cfg : RetryConfig) (inner : Nat → Request → Outcome)
    (req : Request) (bb : Option (List Nat)) (fuel attempt : Nat) (h : fuel ≠ 0) :
    1 ≤ (retryLoop cfg inner req bb attempt fuel).attempts.length := by
  cases fuel with
  | zero => exact absurd rfl h
  | succ n =>
    simp only [retryLoop]
    split <;> simp

theorem retryLoop_len_always (cfg : RetryConfig) (inner : Nat → Request → Outcome)
    (req : Request) (bb : Option (List Nat))
    (hal : ∀ o : Outcome, shouldRetry cfg o = true) :
    ∀ (fuel attempt : Nat), (fuel : Int) = cfg.maxRetries + 1 - attempt →
      (retryLoop cfg inner req bb attempt fuel).attempts.length = fuel := by
  intro fuel
  induction fuel with
  | zero => intro attempt _; simp [retryLoop]
  | succ n ih =>
    intro attempt hinv
    simp only [retryLoop, hal, Bool.and_true]
    by_cases hlt : (attempt : Int) < cfg.maxRetries
    · rw [if_pos (by simpa using hlt)]
      have : (n : Int) = cfg.maxRetries + 1 - (attempt + 1 : Nat) := by
        push_cast at hinv ⊢
        omega
      simp [ih (attempt + 1) this]
    · rw [if_neg (by simpa using hlt)]
      have hn : n = 0 := by
        have := hinv
        push_cast at this
        omega
      simp [hn]

theorem retryLoop_nil_retryIf (cfg : RetryConfig) (inner : Nat → Request → Outcome)
    (req : Request) (bb : Option (List Nat)) (h : cfg.retryIf = none)
    (fuel attempt : Nat) (hf : fuel ≠ 0) :
    (retryLoop cfg inner req bb attempt fuel).attempts.length = 1 ∧
    (retryLoop cfg inner req bb attempt fuel).sleeps = [] := by
  cases fuel with
  | zero => exact absurd rfl hf
  | succ n =>
    simp [retryLoop, shouldRetry, h]

theorem retryLoop_sentBody (cfg : RetryConfig) (inner : Nat → Request → Outcome)
    (req : Request) (bb : Option (List Nat)) :
    ∀ (fuel attempt : Nat),
      ∀ l ∈ (retryLoop cfg inner req bb attempt fuel).attempts,
        l.sentBody = bb.or req.body := by
  intro fuel
  induction fuel with
  | zero => intro attempt l hl; simp [retryLoop] at hl
  | succ n ih =>
    intro attempt l hl
    simp only [retryLoop] at hl
    cases bb with
    | none =>
      simp only [Option.or] at *
      split at hl
      · rcases List.mem_cons.mp hl with h1 | h1
        · subst h1; rfl
        · exact ih (attempt + 1) l h1
      · rcases List.mem_singleton.mp hl with h1
        subst h1; rfl
    | some b =>
      simp only [Option.or] at *
      split at hl
      · rcases List.mem_cons.mp hl with h1 | h1
        · subst h1; rfl
        · exact ih (attempt + 1) l h1
      · rcases List.mem_singleton.mp hl with h1
        subst h1; rfl

theorem retryLoop_sleeps (cfg : RetryConfig) (inner : Nat → Request → Outcome)
    (req : Request) (bb : Option (List Nat)) :
    ∀ (fuel attempt : Nat), cfg.maxRetries + 1 - (attempt : Int) ≤ fuel →
      (retryLoop cfg inner req bb attempt fuel).sleeps =
        (List.range ((retryLoop cfg inner req bb attempt fuel).attempts.length - 1)).map
          (fun n : Nat => cfg.backoff * ((attempt : Int) + (n : Int) + 1)) := by
  intro fuel
  induction fuel with
  | zero => intro attempt _; simp [retryLoop]
  | succ n ih =>
    intro attempt hinv
    simp only [retryLoop]
    split
    · rename_i hcond
      have hlt : (attempt : Int) < cfg.maxRetries := by
        have := (Bool.and_eq_true _ _).mp hcond |>.1
        simpa using this
      have hn1 : 1 ≤ n := by
        push_cast at hinv
        omega
      have hinv2 : cfg.maxRetries + 1 - ((attempt + 1 : Nat) : Int) ≤ n := by
        push_cast at hinv ⊢
        omega
      have hrest := ih (attempt + 1) hinv2
      have hlen : 1 ≤ (retryLoop cfg inner req bb (attempt + 1) n).attempts.length :=
        retryLoop_len_pos cfg inner req bb n (attempt + 1) (by omega)
      simp only [List.length_cons]
      rw [hrest]
      obtain ⟨m, hm⟩ : ∃ m, (retryLoop cfg inner req bb (attempt + 1) n).attempts.length = m + 1 :=
        ⟨_, (Nat.succ_pred_eq_of_pos hlen).symm⟩
      rw [hm]
      simp only [Nat.add_sub_cancel, Nat.succ_sub_one]
      rw [List.range_succ_eq_map]
      simp only [List.map_cons, List.map_map]
      refine List.cons_eq_cons.mpr ⟨by push_cast; ring, ?_⟩
      apply List.map_congr_left
      intro k _
      simp only [Function.comp]
      push_cast
      ring
    · simp

/-- C4: `defaultRetryCondition(resp, err)` returns true exactly when the error
is non-nil, or the status code is at least 500, or the status code is 429; in
particular it returns false for every status in 200..499 other than 429 when
the error is nil. -/
theorem default_retry_condition_iff (resp : Response) (err : Option Err) :
    (defaultRetryCondition resp err = true ↔
      err ≠ none ∨ 500 ≤ resp.statusCode ∨ resp.statusCode = 429) ∧
    (err = none → 200 ≤ resp.statusCode → resp.statusCode < 500 →
      resp.statusCode ≠ 429 → defaultRetryCondition resp err = false) := by
  constructor
  · cases err with
    | none => simp [defaultRetryCondition]
    | some e => simp [defaultRetryCondition]
  · intro h1 h2 h3 h4
    subst h1
    simp [defaultRetryCondition]
    omega

/-- Witness for `default_retry_condition_iff` at a 404 response with nil
error. -/
theorem default_retry_condition_iff_witness :
    (defaultRetryCondition ⟨404⟩ none = true ↔
      (none : Option Err) ≠ none ∨ 500 ≤ (404 : Int) ∨ (404 : Int) = 429) ∧
    ((none : Option Err) = none → 200 ≤ (404 : Int) → (404 : Int) < 500 →
      (404 : Int) ≠ 429 → defaultRetryCondition ⟨404⟩ none = false) :=
  default_retry_condition_iff ⟨404⟩ none

/-- C7 counterexample: with base `https://api.example.com` and an empty path,
the source returns the bare base while the claimed rule (separating slash
inserted exactly when the path does not start with one) would append a
trailing slash. -/
theorem resolve_url_counterexample :
    resolveURL "https://api.example.com" "" = "https://api.example.com" ∧
    resolveURLClaimed "https://api.example.com" "" = "https://api.example.com/" ∧
    resolveURL "https://api.example.com" "" ≠
      resolveURLClaimed "https://api.example.com" "" := by
  refine ⟨by decide, by decide, by decide⟩

/-- C7 amended: resolution follows the claimed rule with the empty-path case
added (an empty trimmed path yields the trimmed base, one trailing slash
removed, with no separating slash appended), and the four resolution examples
of the claim hold as stated. -/
theorem resolve_url_amended (b p : String) :
    resolveURL b p = resolveURLAmended b p ∧
    resolveURL "https://api.example.com" "/users" = "https://api.example.com/users" ∧
    resolveURL "https://api.example.com/" "/users" = "https://api.example.com/users" ∧
    resolveURL "" "/users" = "/users" ∧
    resolveURL "https://api.example.com" "users" = "https://api.example.com/users" := by
  refine ⟨rfl, by decide, by decide, by decide, by decide⟩

/-- C8: the blocklist transport fails with a blocked-domain error and a nil
response, independently of the inner transport, exactly when some blocked
entry is a substring of the request URL host; with no matching entry it
returns the inner transport result unchanged. -/
theorem blocklist_short_circuit (blockedList : List String)
    (inner : Request → Outcome) (req : Request) :
    ((∃ blocked ∈ blockedList, strContains req.host blocked = true) →
      (∃ blocked ∈ blockedList, strContains req.host blocked = true ∧
        blockListRoundTrip blockedList inner req = (none, some (Err.blocked blocked))) ∧
      (∀ inner2 : Request → Outcome,
        blockListRoundTrip blockedList inner req =
          blockListRoundTrip blockedList inner2 req)) ∧
    ((∀ blocked ∈ blockedList, strContains req.host blocked = false) →
      blockListRoundTrip blockedList inner req = inner req) := by
  constructor
  · intro hex
    have hsome : (blockedList.find? (fun blocked => strContains req.host blocked)).isSome := by
      rw [List.find?_isSome]
      obtain ⟨bl, hmem, hbl⟩ := hex
      exact ⟨bl, hmem, hbl⟩
    obtain ⟨bl, hfind⟩ := Option.isSome_iff_exists.mp hsome
    refine ⟨⟨bl, List.mem_of_find?_eq_some hfind, List.find?_some hfind, ?_⟩, ?_⟩
    · simp [blockListRoundTrip, hfind]
    · intro inner2
      simp [blockListRoundTrip, hfind]
  · intro hall
    have hnone : blockedList.find? (fun blocked => strContains req.host blocked) = none := by
      rw [List.find?_eq_none]
      intro bl hmem
      simp [hall bl hmem]
    simp [blockListRoundTrip, hnone]

/-- Witness for `blocklist_short_circuit` with blocked list `["evil"]`: the
host `api.good.com` matches no entry and the request is delegated unchanged. -/
theorem blocklist_short_circuit_witness :
    (∀ blocked ∈ (["evil"] : List String), strContains "api.good.com" blocked = false) ∧
    blockListRoundTrip ["evil"] innerOK ⟨"api.good.com", none⟩ =
      innerOK ⟨"api.good.com", none⟩ :=
  ⟨by decide, (blocklist_short_circuit ["evil"] innerOK ⟨"api.good.com", none⟩).2 (by decide)⟩

/-- C9: a logged header line whose name is sensitive (its lower-cased name
contains one of the substrings authorization, api-key, x-api-key, cookie)
carries the fixed placeholder instead of its value, so the logged lines are
identical for any two values of that header (no occurrence of the secret can
appear); a line with a non-sensitive name is logged with its value unchanged;
and sensitivity is exactly the case-insensitive substring match against that
set. -/
theorem debug_masks_sensitive_headers (k v₁ v₂ : String)
    (rest : List (String × String)) (hk : isSensitive k = true) :
    logHeaders ((k, v₁) :: rest) = (k, maskedValue) :: logHeaders rest ∧
    logHeaders ((k, v₁) :: rest) = logHeaders ((k, v₂) :: rest) ∧
    (∀ k2 v, isSensitive k2 = false →
      logHeaders ((k2, v) :: rest) = (k2, v) :: logHeaders rest) ∧
    (∀ k2, isSensitive k2 = true ↔
      ∃ s ∈ sensitiveHeaderNames, strContains (strToLower k2) s = true) := by
  refine ⟨?_, ?_, ?_, ?_⟩
  · simp [logHeaders, hk]
  · simp [logHeaders, hk]
  · intro k2 v hk2
    simp [logHeaders, hk2]
  · intro k2
    simp [isSensitive, List.any_eq_true]

/-- Witness for `debug_masks_sensitive_headers`: an `Authorization` header is
masked and its logged line does not depend on the bearer token. -/
theorem debug_masks_sensitive_headers_witness :
    isSensitive "Authorization" = true ∧
    (logHeaders [("Authorization", "Bearer secret-X"), ("Accept", "*/*")] =
        ("Authorization", maskedValue) :: logHeaders [("Accept", "*/*")] ∧
      logHeaders [("Authorization", "Bearer secret-X"), ("Accept", "*/*")] =
        logHeaders [("Authorization", "Bearer other-Y"), ("Accept", "*/*")] ∧
      (∀ k2 v, isSensitive k2 = false →
        logHeaders ((k2, v) :: [("Accept", "*/*")]) =
          (k2, v) :: logHeaders [("Accept", "*/*")]) ∧
      (∀ k2, isSensitive k2 = true ↔
        ∃ s ∈ sensitiveHeaderNames, strContains (strToLower k2) s = true)) :=
  ⟨by decide,
   debug_masks_sensitive_headers "Authorization" "Bearer secret-X" "Bearer other-Y"
     [("Accept", "*/*")] (by decide)⟩

/-- C1: with `maxRetries = K ≥ 0`, one `retryTransport.RoundTrip` call invokes
the inner transport at least once and at most `K + 1` times; if the configured
retry predicate accepts every outcome, exactly `K + 1` inner invocations
occur; and with `maxRetries = 0` exactly one invocation occurs and no sleep is
performed. -/
theorem retry_attempt_count (cfg : RetryConfig) (inner : Nat → Request → Outcome)
    (req : Request) (K : Int) (hK : cfg.maxRetries = K) (h0 : 0 ≤ K) :
    (1 ≤ (retryRoundTrip cfg inner req).attempts.length ∧
      ((retryRoundTrip cfg inner req).attempts.length : Int) ≤ K + 1) ∧
    ((∃ f, cfg.retryIf = some f ∧ ∀ r e, f r e = true) →
      ((retryRoundTrip cfg inner req).attempts.length : Int) = K + 1) ∧
    (K = 0 → (retryRoundTrip cfg inner req).attempts.length = 1 ∧
      (retryRoundTrip cfg inner req).sleeps = []) := by
  have hfuel : ((cfg.maxRetries + 1).toNat : Int) = K + 1 := by
    rw [hK]
    exact Int.toNat_of_nonneg (by omega)
  refine ⟨⟨?_, ?_⟩, ?_, ?_⟩
  · apply retryLoop_len_pos
    omega
  · calc ((retryRoundTrip cfg inner req).attempts.length : Int)
        ≤ ((cfg.maxRetries + 1).toNat : Int) := by
          exact_mod_cast retryLoop_len_le cfg inner req req.body _ 0
      _ = K + 1 := hfuel
  · intro ⟨f, hf, hft⟩
    have hal : ∀ o : Outcome, shouldRetry cfg o = true := by
      intro o
      simp [shouldRetry, hf, hft]
    have := retryLoop_len_always cfg inner req req.body hal
      (cfg.maxRetries + 1).toNat 0 (by omega)
    rw [retryRoundTrip, this]
    exact hfuel
  · intro hK0
    subst hK0
    have hone : (cfg.maxRetries + 1).toNat = 1 := by omega
    constructor
    · have hle := retryLoop_len_le cfg inner req req.body (cfg.maxRetries + 1).toNat 0
      have hge := retryLoop_len_pos cfg inner req req.body (cfg.maxRetries + 1).toNat 0
        (by omega)
      rw [retryRoundTrip]
      omega
    · have := retryLoop_sleeps cfg inner req req.body (cfg.maxRetries + 1).toNat 0
        (by push_cast; omega)
      rw [retryRoundTrip, this]
      have hle := retryLoop_len_le cfg inner req req.body (cfg.maxRetries + 1).toNat 0
      rw [hone] at hle ⊢
      interval_cases h : (retryLoop cfg inner req req.body 0 1).attempts.length <;> simp

/-- Witness for `retry_attempt_count` at `maxRetries = 2` with an
always-accepting predicate and a failing inner transport. -/
theorem retry_attempt_count_witness :
    ((0 : Int) ≤ 2) ∧
    ((1 ≤ (retryRoundTrip ⟨2, 5, some fun _ _ => true⟩ innerFail ⟨"h", none⟩).attempts.length ∧
      ((retryRoundTrip ⟨2, 5, some fun _ _ => true⟩ innerFail ⟨"h", none⟩).attempts.length : Int) ≤ 2 + 1) ∧
    ((∃ f, (RetryConfig.mk 2 5 (some fun _ _ => true)).retryIf = some f ∧ ∀ r e, f r e = true) →
      ((retryRoundTrip ⟨2, 5, some fun _ _ => true⟩ innerFail ⟨"h", none⟩).attempts.length : Int) = 2 + 1) ∧
    ((2 : Int) = 0 → (retryRoundTrip ⟨2, 5, some fun _ _ => true⟩ innerFail ⟨"h", none⟩).attempts.length = 1 ∧
      (retryRoundTrip ⟨2, 5, some fun _ _ => true⟩ innerFail ⟨"h", none⟩).sleeps = [])) :=
  ⟨by norm_num,
   retry_attempt_count ⟨2, 5, some fun _ _ => true⟩ innerFail ⟨"h", none⟩ 2 rfl (by norm_num)⟩

/-- C2: every attempt of one `retryTransport.RoundTrip` call delegates with
exactly the bytes buffered from the incoming request body before the first
attempt; when the incoming body is nil, no attempt gets a body attached. -/
theorem retry_body_replay (cfg : RetryConfig) (inner : Nat → Request → Outcome)
    (req : Request) (l : AttemptLog)
    (hl : l ∈ (retryRoundTrip cfg inner req).attempts) :
    l.sentBody = req.body ∧
    (∀ b, req.body = some b → l.sentBody = some b) ∧
    (req.body = none → l.sentBody = none) := by
  have h := retryLoop_sentBody cfg inner req req.body _ 0 l hl
  have hor : req.body.or req.body = req.body := by
    cases req.body <;> rfl
  rw [hor] at h
  exact ⟨h, fun b hb => by rw [h, hb], fun hb => by rw [h, hb]⟩

/-- Witness for `retry_body_replay`: with a two-byte body and one retry, the
second attempt still carries the full buffered body. -/
theorem retry_body_replay_witness :
    (AttemptLog.mk (some [1, 2]) (none, some (Err.inner 1))) ∈
      (retryRoundTrip ⟨1, 5, some fun _ _ => true⟩ innerFail ⟨"h", some [1, 2]⟩).attempts ∧
    ((AttemptLog.mk (some [1, 2]) (none, some (Err.inner 1))).sentBody =
        (Request.mk "h" (some [1, 2])).body ∧
      (∀ b, (Request.mk "h" (some [1, 2])).body = some b →
        (AttemptLog.mk (some [1, 2]) (none, some (Err.inner 1))).sentBody = some b) ∧
      ((Request.mk "h" (some [1, 2])).body = none →
        (AttemptLog.mk (some [1, 2]) (none, some (Err.inner 1))).sentBody = none)) :=
  ⟨by decide,
   retry_body_replay ⟨1, 5, some fun _ _ => true⟩ innerFail ⟨"h", some [1, 2]⟩
     (AttemptLog.mk (some [1, 2]) (none, some (Err.inner 1))) (by decide)⟩

/-- C3: the sleeps of one `retryTransport.RoundTrip` call are exactly
`backoff * (n + 1)` after each non-final attempt `n` (so none after the final
attempt or a rejected outcome), and with an always-accepting predicate and
`maxRetries = K ≥ 0` the total slept duration is
`backoff * (1 + 2 + ... + K)`. -/
theorem retry_backoff_schedule (cfg : RetryConfig) (inner : Nat → Request → Outcome)
    (req : Request) (K : Int) (hK : cfg.maxRetries = K) (h0 : 0 ≤ K) :
    (retryRoundTrip cfg inner req).sleeps =
      (List.range ((retryRoundTrip cfg inner req).attempts.length - 1)).map
        (fun n : Nat => cfg.backoff * ((n : Int) + 1)) ∧
    ((∃ f, cfg.retryIf = some f ∧ ∀ r e, f r e = true) →
      (retryRoundTrip cfg inner req).sleeps.sum =
        cfg.backoff * ((List.range K.toNat).map (fun n : Nat => (n : Int) + 1)).sum) := by
  have hfuel : ((cfg.maxRetries + 1).toNat : Int) = K + 1 := by
    rw [hK]
    exact Int.toNat_of_nonneg (by omega)
  have hsl := retryLoop_sleeps cfg inner req req.body (cfg.maxRetries + 1).toNat 0
    (by push_cast; omega)
  constructor
  · rw [retryRoundTrip, hsl]
    apply List.map_congr_left
    intro k _
    push_cast
    ring
  · intro ⟨f, hf, hft⟩
    have hal : ∀ o : Outcome, shouldRetry cfg o = true := by
      intro o
      simp [shouldRetry, hf, hft]
    have hlen := retryLoop_len_always cfg inner req req.body hal
      (cfg.maxRetries + 1).toNat 0 (by omega)
    rw [retryRoundTrip, hsl, hlen]
    have hK1 : (cfg.maxRetries + 1).toNat - 1 = K.toNat := by omega
    rw [hK1]
    have hmap : (List.range K.toNat).map
          (fun n : Nat => cfg.backoff * (((0 : Nat) : Int) + (n : Int) + 1)) =
        (List.range K.toNat).map (fun n : Nat => cfg.backoff * ((n : Int) + 1)) := by
      apply List.map_congr_left
      intro k _
      push_cast
      ring
    rw [hmap, List.sum_map_mul_left]

/-- Witness for `retry_backoff_schedule` at `maxRetries = 2`, `backoff = 5`:
the sleeps are `[5, 10]` and sum to `5 * (1 + 2)`. -/
theorem retry_backoff_schedule_witness :
    ((0 : Int) ≤ 2) ∧
    ((retryRoundTrip ⟨2, 5, some fun _ _ => true⟩ innerFail ⟨"h", none⟩).sleeps =
      (List.range ((retryRoundTrip ⟨2, 5, some fun _ _ => true⟩ innerFail ⟨"h", none⟩).attempts.length - 1)).map
        (fun n : Nat => (5 : Int) * ((n : Int) + 1)) ∧
    ((∃ f, (RetryConfig.mk 2 5 (some fun _ _ => true)).retryIf = some f ∧ ∀ r e, f r e = true) →
      (retryRoundTrip ⟨2, 5, some fun _ _ => true⟩ innerFail ⟨"h", none⟩).sleeps.sum =
        (5 : Int) * ((List.range (2 : Int).toNat).map (fun n : Nat => (n : Int) + 1)).sum)) :=
  ⟨by norm_num,
   retry_backoff_schedule ⟨2, 5, some fun _ _ => true⟩ innerFail ⟨"h", none⟩ 2 rfl (by norm_num)⟩

/-- C10 counterexample: with `RetryIf` nil and `maxRetries = -1` (a legal Go
`int` value), the loop body never runs, so the inner transport is invoked zero
times rather than exactly once. -/
theorem retry_nil_predicate_counterexample :
    (retryRoundTrip ⟨-1, 0, none⟩ innerFail ⟨"h", none⟩).attempts.length = 0 ∧
    ¬ (retryRoundTrip ⟨-1, 0, none⟩ innerFail ⟨"h", none⟩).attempts.length = 1 := by
  decide

/-- C10 amended: if `RetryIf` is nil and `maxRetries ≥ 0`, one
`retryTransport.RoundTrip` call performs exactly one inner invocation and
never sleeps, for every outcome of the attempt — the documented fallback to
`defaultRetryCondition` does not happen inside the retry transport. -/
theorem retry_nil_predicate_single_attempt (cfg : RetryConfig)
    (inner : Nat → Request → Outcome) (req : Request)
    (h : cfg.retryIf = none) (h0 : 0 ≤ cfg.maxRetries) :
    (retryRoundTrip cfg inner req).attempts.length = 1 ∧
    (retryRoundTrip cfg inner req).sleeps = [] :=
  retryLoop_nil_retryIf cfg inner req req.body h (cfg.maxRetries + 1).toNat 0 (by omega)

/-- Witness for `retry_nil_predicate_single_attempt` at `maxRetries = 3` with
a nil predicate and a failing inner transport. -/
theorem retry_nil_predicate_witness :
    (RetryConfig.mk 3 7 none).retryIf = none ∧
    (0 : Int) ≤ (RetryConfig.mk 3 7 none).maxRetries ∧
    ((retryRoundTrip ⟨3, 7, none⟩ innerFail ⟨"h", some [9]⟩).attempts.length = 1 ∧
      (retryRoundTrip ⟨3, 7, none⟩ innerFail ⟨"h", some [9]⟩).sleeps = []) :=
  ⟨rfl, by norm_num,
   retry_nil_predicate_single_attempt ⟨3, 7, none⟩ innerFail ⟨"h", some [9]⟩ rfl (by norm_num)⟩

/-- Helper: a populated cache is returned as-is with no state change. -/
theorem bytes_cached (gunzip : List Nat → Except Unit (List Nat))
    (reads : Nat → Except Unit (List Nat)) (r : RespState) (b : List Nat)
    (h : r.bodyCache = some b) :
    bytes gunzip reads r = ((some b, none), r) := by
  simp [bytes, h]

/-- Helper: a successful `bytes` call stores exactly the returned value in
the cache, and a failing call leaves the cache empty while consuming one read
of the underlying stream. -/
theorem bytes_spec (gunzip : List Nat → Except Unit (List Nat))
    (reads : Nat → Except Unit (List Nat)) (r : RespState) :
    ((bytes gunzip reads r).1.2 = none →
      (bytes gunzip reads r).2.bodyCache = (bytes gunzip reads r).1.1) ∧
    (∀ e : Err, (bytes gunzip reads r).1.2 = some e →
      (bytes gunzip reads r).2.bodyCache = none ∧
      (bytes gunzip reads r).2.readsDone = r.readsDone + 1) := by
  cases hb : r.bodyCache with
  | some b0 =>
    constructor
    · intro _
      simp [bytes, hb]
    · intro e he
      rw [bytes_cached gunzip reads r b0 hb] at he
      simp at he
  | none =>
    cases hr : reads r.readsDone with
    | error u =>
      constructor
      · intro hn
        simp [bytes, hb, hr] at hn
      · intro e he
        constructor
        · simp [bytes, hb, hr, hb]
        · simp [bytes, hb, hr]
    | ok raw =>
      by_cases hgz : isGzipEncoded r.contentEncoding
      · cases hd : decodeGzipBody gunzip raw with
        | mk d de =>
          cases de with
          | none =>
            constructor
            · intro _
              simp [bytes, hb, hr, hgz, hd]
            · intro e he
              simp [bytes, hb, hr, hgz, hd] at he
          | some e0 =>
            constructor
            · intro hn
              simp [bytes, hb, hr, hgz, hd] at hn
            · intro e he
              refine ⟨?_, ?_⟩ <;> simp [bytes, hb, hr, hgz, hd]
      · constructor
        · intro _
          simp [bytes, hb, hr, hgz]
        · intro e he
          simp [bytes, hb, hr, hgz] at he

/-- C6: once a `Bytes()` call succeeds and populates the cache, every further
body accessor (`Bytes`, `String`, `JSON`, `XML`, `CSV`) consumes exactly the
cached bytes, returns them without touching the underlying stream, and leaves
the state unchanged; a failing call leaves the cache unpopulated and consumes
one stream read, so the next call reads afresh. -/
theorem response_body_cache (gunzip : List Nat → Except Unit (List Nat))
    (reads : Nat → Except Unit (List Nat)) (r r1 : RespState) (b : List Nat)
    (um : List Nat → Option Err)
    (hsucc : bytes gunzip reads r = ((some b, none), r1)) :
    r1.bodyCache = some b ∧
    bytes gunzip reads r1 = ((some b, none), r1) ∧
    stringBody gunzip reads r1 = ((some (bytesToStr b), none), r1) ∧
    jsonDecode um gunzip reads r1 = (um b, r1) ∧
    xmlDecode um gunzip reads r1 = (um b, r1) ∧
    csvDecode um gunzip reads r1 = (um b, r1) ∧
    (∀ (r2 : RespState) (e : Err), (bytes gunzip reads r2).1.2 = some e →
      (bytes gunzip reads r2).2.bodyCache = none ∧
      (bytes gunzip reads r2).2.readsDone = r2.readsDone + 1) := by
  have h2 := (bytes_spec gunzip reads r).1
  rw [hsucc] at h2
  have hc : r1.bodyCache = some b := by simpa using h2 rfl
  have hb1 := bytes_cached gunzip reads r1 b hc
  refine ⟨hc, hb1, ?_, ?_, ?_, ?_, ?_⟩
  · simp [stringBody, hb1]
  · simp [jsonDecode, hb1]
  · simp [xmlDecode, hb1]
  · simp [csvDecode, hb1]
  · intro r2 e he
    exact (bytes_spec gunzip reads r2).2 e he

/-- C5 amended: on malformed gzip data, `decodeGzipBody` returns the
original (still-compressed) bytes alongside a non-nil error, but
`Response.Bytes()` discards that fallback value and returns nil bytes with the
error, leaving the cache unpopulated. -/
theorem gzip_decode_failure_fallback (gunzip : List Nat → Except Unit (List Nat))
    (reads : Nat → Except Unit (List Nat)) (r : RespState) (body : List Nat)
    (hne : body ≠ []) (hfail : gunzip body = Except.error ())
    (henc : isGzipEncoded r.contentEncoding = true) (hcache : r.bodyCache = none)
    (hread : reads r.readsDone = Except.ok body) :
    decodeGzipBody gunzip body = (body, some Err.gzip) ∧
    (bytes gunzip reads r).1 = (none, some Err.gzip) ∧
    (bytes gunzip reads r).2.bodyCache = none ∧
    (bytes gunzip reads r).2.readsDone = r.readsDone + 1 := by
  have hd : decodeGzipBody gunzip body = (body, some Err.gzip) := by
    simp [decodeGzipBody, hne, hfail]
  refine ⟨hd, ?_, ?_, ?_⟩ <;> simp [bytes, hcache, hread, henc, hd]

/-- C5 counterexample: for a gzip-encoded response whose three bytes are not
valid gzip data, `Bytes()` returns nil bytes with the error instead of the
original bytes the claim promises, even though `decodeGzipBody` itself did
produce the original-bytes fallback. -/
theorem gzip_fallback_counterexample :
    (bytes (fun _ => Except.error ()) (fun _ => Except.ok [1, 2, 3])
        ⟨"gzip", none, 0⟩).1 = (none, some Err.gzip) ∧
    (bytes (fun _ => Except.error ()) (fun _ => Except.ok [1, 2, 3])
        ⟨"gzip", none, 0⟩).1.1 ≠ some [1, 2, 3] ∧
    decodeGzipBody (fun _ => Except.error ()) [1, 2, 3] = ([1, 2, 3], some Err.gzip) := by
  decide

/-- Witness for `response_body_cache`: a plain two-byte body is cached by the
first call and replayed by every accessor. -/
theorem response_body_cache_witness :
    (bytes (fun _ => Except.error ()) (fun _ => Except.ok [7, 8])
        ⟨"", none, 0⟩ = ((some [7, 8], none), ⟨"", some [7, 8], 1⟩)) ∧
    ((RespState.mk "" (some [7, 8]) 1).bodyCache = some [7, 8] ∧
      bytes (fun _ => Except.error ()) (fun _ => Except.ok [7, 8])
        ⟨"", some [7, 8], 1⟩ = ((some [7, 8], none), ⟨"", some [7, 8], 1⟩) ∧
      stringBody (fun _ => Except.error ()) (fun _ => Except.ok [7, 8])
        ⟨"", some [7, 8], 1⟩ = ((some (bytesToStr [7, 8]), none), ⟨"", some [7, 8], 1⟩) ∧
      jsonDecode (fun _ => none) (fun _ => Except.error ()) (fun _ => Except.ok [7, 8])
        ⟨"", some [7, 8], 1⟩ = (none, ⟨"", some [7, 8], 1⟩) ∧
      xmlDecode (fun _ => none) (fun _ => Except.error ()) (fun _ => Except.ok [7, 8])
        ⟨"", some [7, 8], 1⟩ = (none, ⟨"", some [7, 8], 1⟩) ∧
      csvDecode (fun _ => none) (fun _ => Except.error ()) (fun _ => Except.ok [7, 8])
        ⟨"", some [7, 8], 1⟩ = (none, ⟨"", some [7, 8], 1⟩) ∧
      (∀ (r2 : RespState) (e : Err),
        (bytes (fun _ => Except.error ()) (fun _ => Except.ok [7, 8]) r2).1.2 = some e →
        (bytes (fun _ => Except.error ()) (fun _ => Except.ok [7, 8]) r2).2.bodyCache = none ∧
        (bytes (fun _ => Except.error ()) (fun _ => Except.ok [7, 8]) r2).2.readsDone =
          r2.readsDone + 1)) :=
  ⟨by decide,
   response_body_cache (fun _ => Except.error ()) (fun _ => Except.ok [7, 8])
     ⟨"", none, 0⟩ ⟨"", some [7, 8], 1⟩ [7, 8] (fun _ => none) (by decide)⟩

/-- Witness for `gzip_decode_failure_fallback` on the concrete malformed
body `[1, 2, 3]`. -/
theorem gzip_decode_failure_fallback_witness :
    (([1, 2, 3] : List Nat) ≠ [] ∧
      (fun _ => (Except.error () : Except Unit (List Nat))) [1, 2, 3] = Except.error () ∧
      isGzipEncoded (RespState.mk "gzip" none 0).contentEncoding = true ∧
      (RespState.mk "gzip" none 0).bodyCache = none ∧
      (fun _ => (Except.ok [1, 2, 3] : Except Unit (List Nat))) (RespState.mk "gzip" none 0).readsDone =
        Except.ok [1, 2, 3]) ∧
    (decodeGzipBody (fun _ => Except.error ()) [1, 2, 3] = ([1, 2, 3], some Err.gzip) ∧
      (bytes (fun _ => Except.error ()) (fun _ => Except.ok [1, 2, 3])
          ⟨"gzip", none, 0⟩).1 = (none, some Err.gzip) ∧
      (bytes (fun _ => Except.error ()) (fun _ => Except.ok [1, 2, 3])
          ⟨"gzip", none, 0⟩).2.bodyCache = none ∧
      (bytes (fun _ => Except.error ()) (fun _ => Except.ok [1, 2, 3])
          ⟨"gzip", none, 0⟩).2.readsDone = (RespState.mk "gzip" none 0).readsDone + 1) :=
  ⟨⟨by decide, rfl, by decide, rfl, rfl⟩,
   gzip_decode_failure_fallback (fun _ => Except.error ()) (fun _ => Except.ok [1, 2, 3])
     ⟨"gzip", none, 0⟩ [1, 2, 3] (by decide) rfl (by decide) rfl rfl⟩

end Httpc
